import Mathlib

/-!
Verification development for the eharjes/SearchEngine repository
(src/searchengine.py and src/myapp.py).

The Python source is shallowly embedded: pure fragments become Lean
functions, the parallel-array mutation in `SearchEngine.search` becomes
explicit state passing over lists, and the fallible parts of
`build_index` return `Except`.  External collaborators (the whoosh
index, BeautifulSoup, the crawler) are modelled at the interface the
spec gives them; every place where this happens is marked in the
doc comment of the corresponding definition.
-/

/-- A stored document of the whoosh index: fields `url`, `content`,
`title` of the schema in `SearchEngine.__init__` (searchengine.py
lines 18-23). -/
structure Doc where
  url : String
  content : String
  title : String
deriving DecidableEq

/-- One element of the `word_con_urls_tit` result list of
`SearchEngine.search`: the Python list
`[word_occurrences[i], context_word, url, title]` (searchengine.py
line 134). -/
structure Entry where
  count : Nat
  context : String
  url : String
  title : String
deriving DecidableEq

/-- Python regex class `\w` of the pattern at searchengine.py
lines 114-115, modelled for ASCII text: letters, digits, underscore;
the pattern `[\w']+` additionally admits the apostrophe inside a run,
so the apostrophe is treated as a word character here. -/
def isWordChar (c : Char) : Bool :=
  c.isAlphanum || c = '_' || c = '\''

/-- The punctuation alternatives `[.,!?;]` of the token pattern at
searchengine.py lines 114-115. -/
def isPunctTok (c : Char) : Bool :=
  c = '.' || c = ',' || c = '!' || c = '?' || c = ';'

/-- Worker for `findTokens`: walks the character list keeping the
current (reversed) word-character run in `acc`, emitting a token when
the run ends and a one-character token for each punctuation mark. -/
def tokensAux : List Char → List Char → List String
  | [], acc => if acc.isEmpty then [] else [String.mk acc.reverse]
  | c :: rest, acc =>
    if isWordChar c then tokensAux rest (c :: acc)
    else
      (if acc.isEmpty then [] else [String.mk acc.reverse]) ++
        (if isPunctTok c then String.mk [c] :: tokensAux rest [] else tokensAux rest [])

/-- `re.findall(r"[\w']+|[.,!?;]", s)` of searchengine.py
lines 114-115: maximal word-character runs and the listed single
punctuation marks, in order of appearance. -/
def findTokens (s : String) : List String :=
  tokensAux s.data []

/-- Python `str.lower()` modelled characterwise (ASCII case mapping),
as used at searchengine.py line 115. -/
def lowerStr (s : String) : String :=
  String.mk (s.data.map Char.toLower)

/-- Clamp one Python slice bound for a sequence of length `n`: a
negative bound counts from the end (clipped at 0), a non-negative one
is clipped at `n`. -/
def pyIdx (n : Nat) (a : Int) : Nat :=
  if a < 0 then ((n : Int) + a).toNat else min a.toNat n

/-- Python list slicing `l[a:b]` with possibly negative bounds, the
semantics of `content_for_context[spot-4 : spot+5]` at searchengine.py
line 121. -/
def pySlice {α : Type} (l : List α) (a b : Int) : List α :=
  let s := pyIdx l.length a
  let e := pyIdx l.length b
  (l.drop s).take (e - s)

/-- One pass of Python `str.replace(' ' ++ p, p)`: every
non-overlapping occurrence of a space followed by `p`, scanned left to
right, loses the space. -/
def fixPair (p : Char) : List Char → List Char
  | a :: b :: rest =>
    if a = ' ' && b = p then p :: fixPair p rest
    else a :: fixPair p (b :: rest)
  | l => l

/-- The cosmetic fix-up `.replace(' .','.').replace(' ,',',')` applied
to the joined snippet at searchengine.py line 122. -/
def fixSpaces (s : String) : String :=
  String.mk (fixPair ',' (fixPair '.' s.data))

/-- Modelled from the spec: the BeautifulSoup text facilities the code
consumes (bs4 is an external library, not part of src/).
`visibleText` is `soup.get_text()` after decomposing script and style
subtrees (clean_text, searchengine.py lines 175-182); `sepText` is
`soup.get_text(separator=' ', strip=True)` on the stored content
(search, searchengine.py lines 112-113); `titleOf` is `soup.title`
together with its `.string`: `none` when the page has no title
element, `some none` when the element exists but has no single string
child, `some (some s)` when its string is `s` (build_index,
searchengine.py line 50). -/
structure Bs4 where
  visibleText : String → String
  sepText : String → String
  titleOf : String → Option (Option String)

/-- Python `str.strip()` on a character list: drop leading and
trailing whitespace. -/
def pyStripChars (l : List Char) : List Char :=
  ((l.dropWhile Char.isWhitespace).reverse.dropWhile Char.isWhitespace).reverse

/-- Python `str.strip()` (searchengine.py lines 51 and 185). -/
def pyStrip (s : String) : String :=
  String.mk (pyStripChars s.data)

/-- Worker for `collapseWs`: `prevWs` records whether the previous
kept character was part of a whitespace run already replaced by one
space. -/
def collapseWsAux : List Char → Bool → List Char
  | [], _ => []
  | c :: rest, prevWs =>
    if c.isWhitespace then
      if prevWs then collapseWsAux rest true else ' ' :: collapseWsAux rest true
    else c :: collapseWsAux rest false

/-- `re.sub(r'\s+', ' ', s)` of searchengine.py line 185: every
maximal whitespace run becomes a single space. -/
def collapseWs (s : String) : String :=
  String.mk (collapseWsAux s.data false)

/-- `SearchEngine.clean_text` (searchengine.py lines 165-187): absent
input is returned unchanged; otherwise script/style subtrees are
removed and the visible text is extracted (the `ext.visibleText`
model), whitespace runs are collapsed and the ends stripped. -/
def SearchEngine.clean_text (ext : Bs4) (html_content : Option String) : Option String :=
  match html_content with
  | none => none
  | some h => some (pyStrip (collapseWs (ext.visibleText h)))

/-- The state of one `SearchEngine` instance as far as the embedded
operations read it: whether the index directory exists (`exists_in`,
created by the constructor), the committed documents of the index, and
the `max_pages` result cap of the constructor. -/
structure SearchEngine where
  dirExists : Bool
  docs : List Doc
  max_pages : Nat
deriving DecidableEq

/-- `SearchEngine.is_index_built` (searchengine.py lines 57-68): true
iff the index directory exists and `searcher.doc_count() > 0`. -/
def SearchEngine.is_index_built (eng : SearchEngine) : Bool :=
  eng.dirExists && decide (0 < eng.docs.length)

/-- Modelled from the spec: the crawler collaborator (crawler.py is
not under src/), at the interface §6 of the spec gives it — after
`crawl()` it exposes the visited URLs and `getContent(url) -> string?`
per URL. -/
structure Crawler where
  visited : List String
  get_content : String → Option String

/-- Title extraction of `build_index` (searchengine.py lines 50-51):
`soup.title.string if soup.title else 'No Title'`, then
`str(title).strip()` — Python's `str(None)` is the literal string
"None". -/
def extractTitle (t : Option (Option String)) : String :=
  pyStrip
    (match t with
     | none => "No Title"
     | some none => "None"
     | some (some s) => s)

/-- The per-URL loop of `build_index` (searchengine.py lines 44-54).
For each visited URL the content is fetched; `BeautifulSoup(content,
'html.parser')` at line 46 calls `len(markup)` on its argument and
therefore raises `TypeError` when `get_content` returned `None`
(modelled as the `Except.error` branch, which aborts the build before
the commit at line 55, so nothing is persisted).  Otherwise the title
is extracted, the content cleaned, and — under the
`if content is not None` guard of line 53, which after `clean_text` of
a present string never fails — the document is added. -/
def SearchEngine.process_urls (c : Crawler) (ext : Bs4) : List String → Except String (List Doc)
  | [] => .ok []
  | url :: rest =>
    match c.get_content url with
    | none => .error "TypeError: object of type NoneType has no len()"
    | some raw =>
      let title := extractTitle (ext.titleOf raw)
      match SearchEngine.clean_text ext (some raw) with
      | none => SearchEngine.process_urls c ext rest
      | some ctext =>
        match SearchEngine.process_urls c ext rest with
        | .error e => .error e
        | .ok ds => .ok (⟨url, ctext, title⟩ :: ds)

/-- `SearchEngine.build_index` (searchengine.py lines 31-55): a no-op
when `is_index_built` holds; otherwise the crawler's visited URLs are
processed in order and the resulting documents committed as one batch
(appended to the open index), while an exception raised for any page
aborts the whole build with nothing persisted. -/
def SearchEngine.build_index (c : Crawler) (ext : Bs4) (eng : SearchEngine) :
    Except String SearchEngine :=
  if eng.is_index_built then .ok eng
  else
    match SearchEngine.process_urls c ext c.visited with
    | .error e => .error e
    | .ok ds => .ok { eng with docs := eng.docs ++ ds }

/-- Modelled from the spec: the whoosh retrieval step of `search`
(searchengine.py lines 90-99).  The query `' AND '.join(words)` parsed
with `AndGroup` requires every term to match the `content` field
(spec §4.3); whoosh's analyzer lower-cases both the indexed tokens and
the query terms.  The index's internal relevance order is opaque
(spec §4.3 calls it provisional); it is modelled as corpus order, and
the result is capped at `limit` (`limit=self.max_pages`). -/
def retrieve (docs : List Doc) (words : List String) (limit : Nat) : List Doc :=
  (docs.filter
      (fun d => words.all (fun w => (findTokens (lowerStr d.content)).contains (lowerStr w)))).take
    limit

/-- The occurrence-counting loop of `search` for one result document
(searchengine.py lines 109-122): the stored content's visible text is
re-extracted, tokenized once in original case and once lower-cased;
every lower-cased token that is a member of `words` bumps the count
and overwrites the context with the joined window
`content_for_context[spot-4 : spot+5]` after the cosmetic space
fix-up.  The initial context value (Python's integer 0) is never
observable, because an entry is only formed when the count is
positive, and a positive count means the context was assigned. -/
def scan_doc (ext : Bs4) (words : List String) (stored : String) : Nat × String :=
  let text_content := ext.sepText stored
  let content_for_context := findTokens text_content
  let content := findTokens (lowerStr text_content)
  content.enum.foldl
    (fun acc sw =>
      if words.contains sw.2 then
        (acc.1 + 1,
          fixSpaces
            (String.intercalate " "
              (pySlice content_for_context ((sw.1 : Int) - 4) ((sw.1 : Int) + 5))))
      else acc)
    (0, "")

/-- The recording loop of `search` (searchengine.py lines 126-134):
position `i` holds `[count, context, url, title]` when the count for
result `i` is positive and Python's placeholder 0 (here `none`)
otherwise. -/
def search_collect (ext : Bs4) (words : List String) (results : List Doc) :
    List (Option Entry) :=
  results.map
    (fun r =>
      let sc := scan_doc ext words r.content
      if 0 < sc.1 then some ⟨sc.1, sc.2, r.url, r.title⟩ else none)

/-- The three parallel arrays mutated by the deduplication loops of
`search` (searchengine.py lines 137-157): `word_con_urls_tit`,
`compare_titles` and `compare_urls`, with Python's placeholder 0
rendered as `none`. -/
structure DedupState where
  wcut : List (Option Entry)
  ct : List (Option String)
  cu : List (Option String)

/-- The inner loop of the deduplication (searchengine.py
lines 150-157): every registered slot `idx` whose recorded title
equals the current entry's title is compared by URL length; the strict
comparison removes the registered entry when the current URL is
shorter, and the current entry otherwise.  `compare_urls[idx]` is a
string whenever `compare_titles[idx]` is (the two are only ever set
together at lines 145-146), so the `getD ""` completion of the
impossible case is never reached. -/
def dedupInnerStep (e : Entry) (i : Nat) (s : DedupState) (idx : Nat) : DedupState :=
  if s.ct.getD idx none = some e.title then
    if e.url.length < ((s.cu.getD idx none).getD "").length then
      { s with wcut := s.wcut.set idx none }
    else
      { s with wcut := s.wcut.set i none }
  else s

/-- The inner removal loop itself: `for idx, title in
enumerate(compare_titles)` (searchengine.py line 150). -/
def dedupInner (e : Entry) (i : Nat) (st : DedupState) : DedupState :=
  (List.range st.ct.length).foldl (dedupInnerStep e i) st

/-- One iteration of the outer deduplication loop (searchengine.py
lines 140-157): placeholder entries are skipped; an unseen title is
registered at the current position together with its URL; a title
already registered triggers the inner removal loop. -/
def dedupStep (st : DedupState) (i : Nat) : DedupState :=
  match st.wcut.getD i none with
  | none => st
  | some e =>
    if st.ct.contains (some e.title) then dedupInner e i st
    else { st with ct := st.ct.set i (some e.title), cu := st.cu.set i (some e.url) }

/-- The whole deduplication pass of `search` (searchengine.py
lines 136-157) on the recorded entry list. -/
def search_dedup (l : List (Option Entry)) : List (Option Entry) :=
  ((List.range l.length).foldl dedupStep
      ⟨l, List.replicate l.length none, List.replicate l.length none⟩).wcut

/-- Python's lexicographic comparison of two character lists (string
`<`), used by `sorted` on the result tuples. -/
def charListLt : List Char → List Char → Bool
  | [], [] => false
  | [], _ :: _ => true
  | _ :: _, [] => false
  | a :: as, b :: bs => if a < b then true else if b < a then false else charListLt as bs

/-- Python string `<` on the underlying scalar-value sequences. -/
def strLtB (a b : String) : Bool :=
  charListLt a.data b.data

/-- Python's comparison of two result lists
`[count, context, url, title]` (elementwise lexicographic), the order
used by `sorted(word_con_urls_tit, reverse=True)` at searchengine.py
line 161. -/
def entryLtB (a b : Entry) : Bool :=
  if a.count = b.count then
    if a.context = b.context then
      if a.url = b.url then strLtB a.title b.title
      else strLtB a.url b.url
    else strLtB a.context b.context
  else decide (a.count < b.count)

/-- Insertion of one entry into a list that is non-ascending for
`entryLtB`, keeping it non-ascending. -/
def insertDesc (x : Entry) : List Entry → List Entry
  | [] => [x]
  | y :: ys => if entryLtB x y then y :: insertDesc x ys else x :: y :: ys

/-- `sorted(word_con_urls_tit, reverse=True)` of searchengine.py
line 161: the list rearranged into non-ascending Python tuple order.
Because the comparison key is the whole element, equal elements are
indistinguishable and any correct descending sort produces this same
list. -/
def pySortedDesc (l : List Entry) : List Entry :=
  l.foldr insertDesc []

/-- `SearchEngine.search` up to but excluding the final `sorted` call
(searchengine.py lines 86-160): retrieval, per-document scanning,
recording of positive-count entries, deduplication, and the filter
`[elem for elem in word_con_urls_tit if elem != 0]`. -/
def SearchEngine.search_unsorted (ext : Bs4) (eng : SearchEngine) (words : List String) :
    List Entry :=
  (search_dedup (search_collect ext words (retrieve eng.docs words eng.max_pages))).filterMap id

/-- `SearchEngine.search` (searchengine.py lines 70-163).  The
`open_dir` call of line 87 operates on the directory the constructor
created, so the index handle is modelled as the engine state's
document list. -/
def SearchEngine.search (ext : Bs4) (eng : SearchEngine) (words : List String) : List Entry :=
  pySortedDesc (SearchEngine.search_unsorted ext eng words)

/-- The outcome of the `/search` route: either an HTTP client error or
a rendered results page carrying the result list and the
recommendation string. -/
inductive RouteResponse where
  | clientError : RouteResponse
  | page : List Entry → String → RouteResponse
deriving DecidableEq

/-- Worker for `pySplit`, accumulating the current (reversed)
non-whitespace run. -/
def pySplitAux : List Char → List Char → List String
  | [], acc => if acc.isEmpty then [] else [String.mk acc.reverse]
  | c :: rest, acc =>
    if c.isWhitespace then
      (if acc.isEmpty then [] else [String.mk acc.reverse]) ++ pySplitAux rest []
    else pySplitAux rest (c :: acc)

/-- Python `str.split()` with no argument (myapp.py line 29): split on
whitespace runs with no empty pieces, so the empty string yields the
empty list. -/
def pySplit (s : String) : List String :=
  pySplitAux s.data []

/-- The `/search` route of myapp.py (lines 19-52).  The query string
is split and handed to `SearchEngine.search` unconditionally — there
is no empty-query check before the pipeline runs.  The whoosh
`correct_query` call is external and modelled from the spec (§6) as a
corrector function: the recommendation is the corrected string when it
differs from the query and empty otherwise.  The route always renders
the results page. -/
def searchRoute (ext : Bs4) (eng : SearchEngine) (correct : String → String) (q : String) :
    RouteResponse :=
  let word_con_urls_tit := SearchEngine.search ext eng (pySplit q)
  let recommendation := if correct q ≠ q then correct q else ""
  RouteResponse.page word_con_urls_tit recommendation

/-! Helper lemmas. -/

/-- Setting one position of a list either leaves a position's lookup
unchanged or makes it the written value. -/
theorem get?_set_cases {α : Type} :
    ∀ (l : List α) (k j : Nat) (a : α),
      (l.set k a).get? j = l.get? j ∨ (l.set k a).get? j = some a := by
  intro l
  induction l with
  | nil => intro k j a; left; simp
  | cons x xs ih =>
    intro k j a
    cases k with
    | zero =>
      cases j with
      | zero => right; simp
      | succ j' => left; simp
    | succ k' =>
      cases j with
      | zero => left; simp
      | succ j' => simpa using ih k' j' a

/-- Every position of the deduplicated array holds either the original
entry of that position or the placeholder. -/
def WcutInv (l0 : List (Option Entry)) (w : List (Option Entry)) : Prop :=
  ∀ j, w.get? j = l0.get? j ∨ w.get? j = some none

theorem wcutInv_set_none (l0 w : List (Option Entry)) (k : Nat)
    (h : WcutInv l0 w) : WcutInv l0 (w.set k none) := by
  intro j
  rcases get?_set_cases w k j none with h1 | h2
  · rw [h1]; exact h j
  · right; exact h2

theorem wcutInv_dedupInnerStep (l0 : List (Option Entry)) (e : Entry) (i : Nat)
    (s : DedupState) (idx : Nat) (h : WcutInv l0 s.wcut) :
    WcutInv l0 (dedupInnerStep e i s idx).wcut := by
  unfold dedupInnerStep
  by_cases h1 : s.ct.getD idx none = some e.title
  · rw [if_pos h1]
    by_cases h2 : e.url.length < ((s.cu.getD idx none).getD "").length
    · rw [if_pos h2]; exact wcutInv_set_none l0 s.wcut idx h
    · rw [if_neg h2]; exact wcutInv_set_none l0 s.wcut i h
  · rw [if_neg h1]; exact h

theorem wcutInv_foldl_innerStep (l0 : List (Option Entry)) (e : Entry) (i : Nat) :
    ∀ (idxs : List Nat) (st : DedupState),
      WcutInv l0 st.wcut → WcutInv l0 (idxs.foldl (dedupInnerStep e i) st).wcut := by
  intro idxs
  induction idxs with
  | nil => intro st h; exact h
  | cons idx rest ih =>
    intro st h
    exact ih (dedupInnerStep e i st idx) (wcutInv_dedupInnerStep l0 e i st idx h)

/-- Unfolding equation for `dedupStep` at a position holding an
entry. -/
theorem dedupStep_some (st : DedupState) (i : Nat) (e : Entry)
    (hgi : st.wcut.getD i none = some e) :
    dedupStep st i =
      if st.ct.contains (some e.title) = true then dedupInner e i st
      else { st with ct := st.ct.set i (some e.title), cu := st.cu.set i (some e.url) } := by
  unfold dedupStep
  rw [hgi]

theorem wcutInv_dedupStep (l0 : List (Option Entry)) (st : DedupState) (i : Nat)
    (h : WcutInv l0 st.wcut) : WcutInv l0 (dedupStep st i).wcut := by
  cases hgi : st.wcut.getD i none with
  | none =>
    have : dedupStep st i = st := by unfold dedupStep; rw [hgi]
    rw [this]; exact h
  | some e =>
    rw [dedupStep_some st i e hgi]
    by_cases hc : st.ct.contains (some e.title) = true
    · rw [if_pos hc]
      exact wcutInv_foldl_innerStep l0 e i (List.range st.ct.length) st h
    · rw [if_neg hc]
      exact h

theorem wcutInv_foldl_dedupStep (l0 : List (Option Entry)) :
    ∀ (idxs : List Nat) (st : DedupState),
      WcutInv l0 st.wcut → WcutInv l0 (idxs.foldl dedupStep st).wcut := by
  intro idxs
  induction idxs with
  | nil => intro st h; exact h
  | cons i rest ih =>
    intro st h
    exact ih (dedupStep st i) (wcutInv_dedupStep l0 st i h)

/-- Deduplication never invents an entry: a surviving entry was
already present at the same position of the input list. -/
theorem mem_of_mem_search_dedup (e : Entry) (l : List (Option Entry))
    (h : some e ∈ search_dedup l) : some e ∈ l := by
  have hinv : WcutInv l (search_dedup l) := by
    unfold search_dedup
    exact wcutInv_foldl_dedupStep l (List.range l.length)
      ⟨l, List.replicate l.length none, List.replicate l.length none⟩
      (fun j => Or.inl rfl)
  rcases List.mem_iff_get?.mp h with ⟨j, hj⟩
  rcases hinv j with h1 | h1
  · exact List.mem_iff_get?.mpr ⟨j, by rw [← h1, hj]⟩
  · rw [h1] at hj
    cases hj

/-- A recorded entry comes from one of the retrieved documents, whose
URL and title it carries, and its count is positive. -/
theorem of_mem_search_collect (ext : Bs4) (words : List String) (results : List Doc)
    (e : Entry) (h : some e ∈ search_collect ext words results) :
    ∃ r ∈ results, e.url = r.url ∧ e.title = r.title ∧ 0 < e.count := by
  unfold search_collect at h
  rcases List.mem_map.mp h with ⟨r, hr, heq⟩
  simp only at heq
  by_cases hc : 0 < (scan_doc ext words r.content).1
  · rw [if_pos hc] at heq
    injection heq with heq
    refine ⟨r, hr, ?_, ?_, ?_⟩
    · rw [← heq]
    · rw [← heq]
    · rw [← heq]; exact hc
  · rw [if_neg hc] at heq
    cases heq

/-- Every retrieved document is a document of the index whose content
tokens include the lower-cased form of every query term. -/
theorem of_mem_retrieve (docs : List Doc) (words : List String) (limit : Nat) (r : Doc)
    (h : r ∈ retrieve docs words limit) :
    r ∈ docs ∧
      ∀ w ∈ words, (findTokens (lowerStr r.content)).contains (lowerStr w) = true := by
  unfold retrieve at h
  have h1 := List.mem_of_mem_take h
  rcases List.mem_filter.mp h1 with ⟨hmem, hpred⟩
  refine ⟨hmem, fun w hw => ?_⟩
  exact List.all_eq_true.mp hpred w hw

/-- Membership in an insertion is membership in the inserted element
or the underlying list. -/
theorem mem_of_mem_insertDesc (z x : Entry) :
    ∀ (l : List Entry), z ∈ insertDesc x l → z = x ∨ z ∈ l := by
  intro l
  induction l with
  | nil =>
    intro h
    simp only [insertDesc] at h
    rcases List.mem_singleton.mp h with h1
    exact Or.inl h1
  | cons y ys ih =>
    intro h
    simp only [insertDesc] at h
    by_cases hc : entryLtB x y = true
    · rw [if_pos hc] at h
      rcases List.mem_cons.mp h with h1 | h2
      · exact Or.inr (h1 ▸ List.mem_cons_self y ys)
      · rcases ih h2 with h3 | h4
        · exact Or.inl h3
        · exact Or.inr (List.mem_cons_of_mem y h4)
    · rw [if_neg hc] at h
      rcases List.mem_cons.mp h with h1 | h2
      · exact Or.inl h1
      · exact Or.inr h2

/-- The sort returns only elements of its input. -/
theorem mem_of_mem_pySortedDesc (z : Entry) :
    ∀ (l : List Entry), z ∈ pySortedDesc l → z ∈ l := by
  intro l
  induction l with
  | nil => intro h; simp [pySortedDesc] at h
  | cons x xs ih =>
    intro h
    have h' : z ∈ insertDesc x (pySortedDesc xs) := h
    rcases mem_of_mem_insertDesc z x (pySortedDesc xs) h' with h1 | h2
    · exact h1 ▸ List.mem_cons_self x xs
    · exact List.mem_cons_of_mem x (ih h2)

/-- Python's string comparison is asymmetric. -/
theorem charListLt_asymm :
    ∀ (a b : List Char), charListLt a b = true → charListLt b a = false := by
  intro a
  induction a with
  | nil =>
    intro b h
    cases b with
    | nil => simp [charListLt] at h
    | cons c cs => simp [charListLt]
  | cons x xs ih =>
    intro b h
    cases b with
    | nil => simp [charListLt] at h
    | cons y ys =>
      simp only [charListLt] at h ⊢
      by_cases h1 : x < y
      · have h2 : ¬ y < x := lt_asymm h1
        rw [if_neg h2, if_pos h1]
      · rw [if_neg h1] at h
        by_cases h2 : y < x
        · rw [if_pos h2] at h
          cases h
        · rw [if_neg h2] at h
          rw [if_neg h2, if_neg h1]
          exact ih ys h

theorem strLtB_asymm (a b : String) (h : strLtB a b = true) : strLtB b a = false :=
  charListLt_asymm a.data b.data h

/-- The Python tuple comparison on result entries is asymmetric. -/
theorem entryLtB_asymm (a b : Entry) (h : entryLtB a b = true) : entryLtB b a = false := by
  unfold entryLtB at h ⊢
  by_cases h1 : a.count = b.count
  · rw [if_pos h1] at h
    rw [if_pos h1.symm]
    by_cases h2 : a.context = b.context
    · rw [if_pos h2] at h
      rw [if_pos h2.symm]
      by_cases h3 : a.url = b.url
      · rw [if_pos h3] at h
        rw [if_pos h3.symm]
        exact strLtB_asymm _ _ h
      · rw [if_neg h3] at h
        rw [if_neg (fun hh => h3 hh.symm)]
        exact strLtB_asymm _ _ h
    · rw [if_neg h2] at h
      rw [if_neg (fun hh => h2 hh.symm)]
      exact strLtB_asymm _ _ h
  · rw [if_neg h1] at h
    rw [if_neg (fun hh => h1 hh.symm)]
    have hlt : a.count < b.count := of_decide_eq_true h
    have : ¬ b.count < a.count := by omega
    exact decide_eq_false this

/-- An entry no greater than another in tuple order has a count no
greater than the other's. -/
theorem entryLtB_false_count_le (a b : Entry) (h : entryLtB a b = false) :
    b.count ≤ a.count := by
  unfold entryLtB at h
  by_cases h1 : a.count = b.count
  · omega
  · rw [if_neg h1] at h
    have : ¬ a.count < b.count := of_decide_eq_false h
    omega

/-- The head of an insertion is the inserted element or the previous
head. -/
theorem head?_insertDesc (x : Entry) :
    ∀ (l : List Entry),
      (insertDesc x l).head? = some x ∨ (insertDesc x l).head? = l.head? := by
  intro l
  cases l with
  | nil => left; rfl
  | cons z zs =>
    by_cases hc : entryLtB x z = true
    · right; simp [insertDesc, hc]
    · left; simp [insertDesc, hc]

/-- Inserting into a list whose adjacent pairs are non-ascending in
tuple order keeps adjacent pairs non-ascending. -/
theorem chain'_insertDesc (x : Entry) :
    ∀ (l : List Entry),
      l.Chain' (fun a b => entryLtB a b = false) →
      (insertDesc x l).Chain' (fun a b => entryLtB a b = false) := by
  intro l
  induction l with
  | nil => intro _; simp [insertDesc]
  | cons y ys ih =>
    intro h
    have hy : ∀ b ∈ ys.head?, entryLtB y b = false := (List.chain'_cons'.mp h).1
    have hys : ys.Chain' (fun a b => entryLtB a b = false) := (List.chain'_cons'.mp h).2
    show (if entryLtB x y = true then y :: insertDesc x ys else x :: y :: ys).Chain' _
    by_cases hc : entryLtB x y = true
    · rw [if_pos hc]
      refine List.chain'_cons'.mpr ⟨?_, ih hys⟩
      intro b hb
      rcases head?_insertDesc x ys with h1 | h1
      · rw [h1] at hb
        have hb' : x = b := by simpa using hb
        rw [← hb']
        exact entryLtB_asymm x y hc
      · rw [h1] at hb
        exact hy b hb
    · rw [if_neg hc]
      refine List.chain'_cons'.mpr ⟨?_, h⟩
      intro b hb
      have hb' : y = b := by simpa using hb
      rw [← hb']
      exact eq_false_of_ne_true hc

/-- The sorted result list has non-ascending adjacent pairs in Python
tuple order. -/
theorem chain'_pySortedDesc :
    ∀ (l : List Entry), (pySortedDesc l).Chain' (fun a b => entryLtB a b = false) := by
  intro l
  induction l with
  | nil => simp [pySortedDesc]
  | cons x xs ih =>
    show (insertDesc x (pySortedDesc xs)).Chain' _
    exact chain'_insertDesc x (pySortedDesc xs) ih

/-- Unfolding equation: a visited URL with absent content makes the
per-URL loop raise. -/
theorem process_urls_cons_none (c : Crawler) (ext : Bs4) (u : String) (rest : List String)
    (h : c.get_content u = none) :
    SearchEngine.process_urls c ext (u :: rest) =
      .error "TypeError: object of type NoneType has no len()" := by
  unfold SearchEngine.process_urls
  rw [h]

/-- Unfolding equation: a visited URL with present content adds one
document in front of the documents of the remaining URLs when those
succeed. -/
theorem process_urls_cons_some_ok (c : Crawler) (ext : Bs4) (u : String) (rest : List String)
    (raw : String) (ds : List Doc) (h : c.get_content u = some raw)
    (hr : SearchEngine.process_urls c ext rest = .ok ds) :
    SearchEngine.process_urls c ext (u :: rest) =
      .ok (⟨u, pyStrip (collapseWs (ext.visibleText raw)), extractTitle (ext.titleOf raw)⟩ :: ds) := by
  unfold SearchEngine.process_urls
  rw [h]
  simp only [SearchEngine.clean_text]
  rw [hr]

/-- Unfolding equation: a failure among the remaining URLs propagates
past a visited URL with present content. -/
theorem process_urls_cons_some_error (c : Crawler) (ext : Bs4) (u : String) (rest : List String)
    (raw : String) (er : String) (h : c.get_content u = some raw)
    (hr : SearchEngine.process_urls c ext rest = .error er) :
    SearchEngine.process_urls c ext (u :: rest) = .error er := by
  unfold SearchEngine.process_urls
  rw [h]
  simp only [SearchEngine.clean_text]
  rw [hr]

/-- Every visited URL with present content contributes a document
carrying that URL and the extracted title, whenever the whole loop
succeeds. -/
theorem process_urls_mem (c : Crawler) (ext : Bs4) :
    ∀ (urls : List String) (ds : List Doc) (url raw : String),
      SearchEngine.process_urls c ext urls = .ok ds →
      url ∈ urls → c.get_content url = some raw →
      ∃ d ∈ ds, d.url = url ∧ d.title = extractTitle (ext.titleOf raw) := by
  intro urls
  induction urls with
  | nil =>
    intro ds url raw _ hmem _
    exact absurd hmem (List.not_mem_nil url)
  | cons u rest ih =>
    intro ds url raw hok hmem hc
    rcases List.mem_cons.mp hmem with heq | hmem'
    · subst heq
      cases hrest : SearchEngine.process_urls c ext rest with
      | error er =>
        rw [process_urls_cons_some_error c ext url rest raw er hc hrest] at hok
        cases hok
      | ok ds' =>
        rw [process_urls_cons_some_ok c ext url rest raw ds' hc hrest] at hok
        injection hok with hok
        refine ⟨⟨url, pyStrip (collapseWs (ext.visibleText raw)), extractTitle (ext.titleOf raw)⟩,
          ?_, rfl, rfl⟩
        rw [← hok]
        exact List.mem_cons_self _ _
    · cases hgc : c.get_content u with
      | none =>
        rw [process_urls_cons_none c ext u rest hgc] at hok
        cases hok
      | some raw' =>
        cases hrest : SearchEngine.process_urls c ext rest with
        | error er =>
          rw [process_urls_cons_some_error c ext u rest raw' er hgc hrest] at hok
          cases hok
        | ok ds' =>
          rw [process_urls_cons_some_ok c ext u rest raw' ds' hgc hrest] at hok
          injection hok with hok
          obtain ⟨d, hd, h1, h2⟩ := ih ds' url raw hrest hmem' hc
          refine ⟨d, ?_, h1, h2⟩
          rw [← hok]
          exact List.mem_cons_of_mem _ hd

/-- Unfolding equation: building over an already built index is a
no-op. -/
theorem build_index_built (c : Crawler) (ext : Bs4) (eng : SearchEngine)
    (h : eng.is_index_built = true) :
    SearchEngine.build_index c ext eng = .ok eng := by
  unfold SearchEngine.build_index
  rw [if_pos h]

/-- Unfolding equation: building over a not-yet-built index runs the
per-URL loop and commits its documents. -/
theorem build_index_not_built (c : Crawler) (ext : Bs4) (eng : SearchEngine)
    (h : eng.is_index_built = false) :
    SearchEngine.build_index c ext eng =
      match SearchEngine.process_urls c ext c.visited with
      | .error e => .error e
      | .ok ds => .ok { eng with docs := eng.docs ++ ds } := by
  unfold SearchEngine.build_index
  rw [if_neg (by rw [h]; exact Bool.false_ne_true)]

/-! Concrete instances used by the witnesses and counterexamples. -/

/-- A Bs4 model for plain-text pages: both text extractions are the
identity and every page's title element holds the string "T". -/
def wExt : Bs4 := ⟨fun s => s, fun s => s, fun _ => some (some "T")⟩

def wEngC1 : SearchEngine := ⟨true, [⟨"u", "hello world", "T"⟩], 10⟩

def wEngC2 : SearchEngine :=
  ⟨true, [⟨"aaaa", "x", "T"⟩, ⟨"aa", "x", "T"⟩, ⟨"aaa", "x", "T"⟩], 10⟩

def wEngC3 : SearchEngine := ⟨true, [⟨"u3", "x b c d e f g h i j", "T3"⟩], 10⟩

def wEngC4 : SearchEngine := ⟨true, [⟨"u1", "a x", "T1"⟩, ⟨"u2", "b x", "T2"⟩], 10⟩

def wEngC5 : SearchEngine := ⟨true, [⟨"u", "x", "T"⟩], 10⟩

def wC6 : Crawler := ⟨["u1", "u2"], fun u => if u = "u1" then some "hello" else none⟩

def wEngC6 : SearchEngine := ⟨true, [], 10⟩

def wEngC7 : SearchEngine := ⟨true, [⟨"w7", "q q q", "T7"⟩], 10⟩

def wC8 : Crawler := ⟨["u8"], fun _ => some "hello"⟩

def wEng8 : SearchEngine := ⟨true, [], 10⟩

def wEng8b : SearchEngine := ⟨true, [⟨"u8", "hello", "T"⟩], 10⟩

def wC10 : Crawler := ⟨["u10"], fun _ => some "page"⟩

def wExt10 : Bs4 := ⟨fun s => s, fun s => s, fun _ => some none⟩

def wEng10 : SearchEngine := ⟨true, [], 10⟩

def wEng10b : SearchEngine := ⟨true, [⟨"u10", "page", "None"⟩], 10⟩

/-! The claims. -/

/-- C1: every entry returned by `search` stands for an index document
whose content, tokenized and lower-cased, contains the lower-cased
form of every query term — boolean AND over the content field, never
OR. -/
theorem search_and_semantics (ext : Bs4) (eng : SearchEngine) (words : List String)
    (e : Entry) (h : e ∈ SearchEngine.search ext eng words) :
    ∃ d ∈ eng.docs, e.url = d.url ∧ e.title = d.title ∧
      ∀ w ∈ words, (findTokens (lowerStr d.content)).contains (lowerStr w) = true := by
  have h1 : e ∈ SearchEngine.search_unsorted ext eng words :=
    mem_of_mem_pySortedDesc e _ h
  unfold SearchEngine.search_unsorted at h1
  rcases List.mem_filterMap.mp h1 with ⟨oe, hoe, hid⟩
  have hoe' :
      some e ∈ search_dedup (search_collect ext words (retrieve eng.docs words eng.max_pages)) := by
    have heq : oe = some e := hid
    rw [← heq]
    exact hoe
  have h2 := mem_of_mem_search_dedup e _ hoe'
  obtain ⟨r, hr, hu, ht, _⟩ := of_mem_search_collect ext words _ e h2
  obtain ⟨hrd, hterms⟩ := of_mem_retrieve eng.docs words eng.max_pages r hr
  exact ⟨r, hrd, hu, ht, hterms⟩

/-- Witness for C1 at a concrete index and query. -/
theorem search_and_semantics_witness :
    (⟨2, "hello world", "u", "T"⟩ : Entry) ∈ SearchEngine.search wExt wEngC1 ["hello", "world"] ∧
    ∃ d ∈ wEngC1.docs, (⟨2, "hello world", "u", "T"⟩ : Entry).url = d.url ∧
      (⟨2, "hello world", "u", "T"⟩ : Entry).title = d.title ∧
      ∀ w ∈ ["hello", "world"],
        (findTokens (lowerStr d.content)).contains (lowerStr w) = true :=
  ⟨by decide, search_and_semantics wExt wEngC1 ["hello", "world"] _ (by decide)⟩

/-- C7: every entry returned by `search` has a positive occurrence
count — candidates in which the query terms occur zero times are
filtered out. -/
theorem search_counts_positive (ext : Bs4) (eng : SearchEngine) (words : List String)
    (e : Entry) (h : e ∈ SearchEngine.search ext eng words) : 1 ≤ e.count := by
  have h1 : e ∈ SearchEngine.search_unsorted ext eng words :=
    mem_of_mem_pySortedDesc e _ h
  unfold SearchEngine.search_unsorted at h1
  rcases List.mem_filterMap.mp h1 with ⟨oe, hoe, hid⟩
  have hoe' :
      some e ∈ search_dedup (search_collect ext words (retrieve eng.docs words eng.max_pages)) := by
    have heq : oe = some e := hid
    rw [← heq]
    exact hoe
  have h2 := mem_of_mem_search_dedup e _ hoe'
  obtain ⟨r, _, _, _, hcnt⟩ := of_mem_search_collect ext words _ e h2
  omega

/-- Witness for C7 at a concrete index and query. -/
theorem search_counts_positive_witness :
    (⟨3, "q q", "w7", "T7"⟩ : Entry) ∈ SearchEngine.search wExt wEngC7 ["q"] ∧
    1 ≤ (⟨3, "q q", "w7", "T7"⟩ : Entry).count :=
  ⟨by decide, search_counts_positive wExt wEngC7 ["q"] _ (by decide)⟩

/-- C4 counterexample: two equal-count entries do NOT retain their
relative retrieval order.  Before sorting, the entry of url `u1`
(snippet "a x") precedes the entry of url `u2` (snippet "b x"), both
with count 1; `sorted(..., reverse=True)` compares the full Python
lists and puts the `u2` entry first, so the sort is not stable with
respect to retrieval order. -/
theorem search_equal_counts_reordered :
    SearchEngine.search_unsorted wExt wEngC4 ["x"] =
      [⟨1, "a x", "u1", "T1"⟩, ⟨1, "b x", "u2", "T2"⟩] ∧
    SearchEngine.search wExt wEngC4 ["x"] =
      [⟨1, "b x", "u2", "T2"⟩, ⟨1, "a x", "u1", "T1"⟩] ∧
    (⟨1, "a x", "u1", "T1"⟩ : Entry).count = (⟨1, "b x", "u2", "T2"⟩ : Entry).count :=
  ⟨rfl, rfl, rfl⟩

/-- C4 amended: the result list of `search` is non-ascending in the
full Python tuple order (count, snippet, url, title), so in particular
adjacent occurrence counts are non-increasing; ties in count are
ordered by the descending comparison of the remaining fields, not by
retrieval order. -/
theorem search_sorted_by_count_desc (ext : Bs4) (eng : SearchEngine) (words : List String) :
    (SearchEngine.search ext eng words).Chain' (fun a b => entryLtB a b = false) ∧
    (SearchEngine.search ext eng words).Chain' (fun a b => b.count ≤ a.count) := by
  refine ⟨chain'_pySortedDesc _, ?_⟩
  exact List.Chain'.imp (fun a b hab => entryLtB_false_count_le a b hab)
    (chain'_pySortedDesc (SearchEngine.search_unsorted ext eng words))

/-- C9: searching an engine whose index directory exists but holds no
documents (`is_index_built` is false) returns the empty result list
without an error. -/
theorem search_unbuilt_empty (ext : Bs4) (eng : SearchEngine) (words : List String)
    (hdir : eng.dirExists = true) (hnb : eng.is_index_built = false) :
    SearchEngine.search ext eng words = [] := by
  have hdocs : eng.docs = [] := by
    have h := hnb
    unfold SearchEngine.is_index_built at h
    rw [hdir] at h
    simp only [Bool.true_and] at h
    have h2 : ¬ 0 < eng.docs.length := of_decide_eq_false h
    exact List.length_eq_zero.mp (by omega)
  show pySortedDesc
      ((search_dedup
          (search_collect ext words (retrieve eng.docs words eng.max_pages))).filterMap id) = []
  rw [hdocs]
  have hr : retrieve [] words eng.max_pages = [] := by
    unfold retrieve
    simp
  rw [hr]
  rfl

/-- Witness for C9 at a concrete engine. -/
theorem search_unbuilt_empty_witness :
    SearchEngine.search wExt ⟨true, [], 5⟩ ["a"] = [] :=
  search_unbuilt_empty wExt ⟨true, [], 5⟩ ["a"] rfl rfl

/-- C2: evaluation of `search` at a failing input for the
deduplication.  Three candidate documents share the title "T" with
URLs of lengths 4, 2 and 3; the code removes only the first-registered
entry (twice) because the comparison arrays are never updated after a
removal, so BOTH the url "aa" entry and the url "aaa" entry survive —
two distinct returned entries with the same title, and the survivor
set is not the single shortest-url entry. -/
theorem search_duplicate_titles_survive :
    SearchEngine.search wExt wEngC2 ["x"] =
      [⟨1, "x", "aaa", "T"⟩, ⟨1, "x", "aa", "T"⟩] ∧
    (⟨1, "x", "aaa", "T"⟩ : Entry).title = (⟨1, "x", "aa", "T"⟩ : Entry).title :=
  ⟨rfl, rfl⟩

/-- C3: evaluation of `search` at a failing input for the snippet
window.  The single document's text tokenizes to 10 tokens with the
only match at index 0; Python's `content_for_context[0-4 : 0+5]` is
the slice `[-4:5]`, whose negative start counts from the end (index 6)
and exceeds the stop, so the snippet is the empty string instead of
the boundary-clipped window "x b c d e". -/
theorem search_snippet_empty_for_early_match :
    SearchEngine.search wExt wEngC3 ["x"] = [⟨1, "", "u3", "T3"⟩] ∧
    ("" : String) ≠ "x b c d e" :=
  ⟨rfl, by decide⟩

/-- C5 counterexample: the `/search` route applied to the empty query
string renders a results page — produced by running the full search
pipeline on the empty term list — and does not signal a client
error. -/
theorem searchRoute_empty_query_not_rejected :
    searchRoute wExt wEngC5 (fun s => s) "" =
      RouteResponse.page (SearchEngine.search wExt wEngC5 []) "" ∧
    searchRoute wExt wEngC5 (fun s => s) "" ≠ RouteResponse.clientError :=
  ⟨rfl, by decide⟩

/-- C5 amended: for every engine and corrector, the route on the empty
query invokes the search pipeline with the empty term list (the result
of `"".split()`) and returns a rendered page, never a client error. -/
theorem searchRoute_empty_runs_pipeline (ext : Bs4) (eng : SearchEngine)
    (correct : String → String) :
    searchRoute ext eng correct "" =
      RouteResponse.page (SearchEngine.search ext eng [])
        (if correct "" ≠ "" then correct "" else "") := rfl

/-- C6: evaluation of `build_index` at a failing input.  The crawler
visited two URLs; the second URL's content is absent, and the build
aborts with the `BeautifulSoup(None)` TypeError instead of silently
skipping the page — no document (not even the good first page) is
committed. -/
theorem build_index_absent_content_error :
    SearchEngine.build_index wC6 wExt wEngC6 =
      Except.error "TypeError: object of type NoneType has no len()" := rfl

/-- C8: `build_index` is idempotent.  On an engine whose index
directory exists (guaranteed by the constructor), a second build right
after a successful build leaves the document count unchanged, and a
build over an index that already holds at least one document is a
no-op. -/
theorem build_index_idempotent (c : Crawler) (ext : Bs4) (eng eng1 eng2 : SearchEngine)
    (hdir : eng.dirExists = true)
    (h1 : SearchEngine.build_index c ext eng = .ok eng1)
    (h2 : SearchEngine.build_index c ext eng1 = .ok eng2) :
    eng2.docs.length = eng1.docs.length ∧
      (eng.is_index_built = true → eng1 = eng) := by
  by_cases hb : eng.is_index_built = true
  · rw [build_index_built c ext eng hb] at h1
    injection h1 with h1
    have hb1 : eng1.is_index_built = true := by rw [← h1]; exact hb
    rw [build_index_built c ext eng1 hb1] at h2
    injection h2 with h2
    exact ⟨by rw [← h2], fun _ => h1.symm⟩
  · have hbf : eng.is_index_built = false := eq_false_of_ne_true hb
    have hdocs : eng.docs = [] := by
      have h := hbf
      unfold SearchEngine.is_index_built at h
      rw [hdir] at h
      simp only [Bool.true_and] at h
      have h2' : ¬ 0 < eng.docs.length := of_decide_eq_false h
      exact List.length_eq_zero.mp (by omega)
    rw [build_index_not_built c ext eng hbf] at h1
    cases hp : SearchEngine.process_urls c ext c.visited with
    | error er =>
      rw [hp] at h1
      cases h1
    | ok ds =>
      rw [hp] at h1
      injection h1 with h1
      by_cases hds : ds = []
      · have hb1 : eng1.is_index_built = false := by
          rw [← h1]
          unfold SearchEngine.is_index_built
          simp [hdocs, hds]
        rw [build_index_not_built c ext eng1 hb1, hp] at h2
        injection h2 with h2
        refine ⟨?_, fun hcontra => absurd hcontra hb⟩
        rw [← h2]
        simp [hds]
      · have hb1 : eng1.is_index_built = true := by
          rw [← h1]
          unfold SearchEngine.is_index_built
          simp only [hdir, hdocs, Bool.true_and, List.nil_append, decide_eq_true_eq]
          exact List.length_pos.mpr hds
        rw [build_index_built c ext eng1 hb1] at h2
        injection h2 with h2
        exact ⟨by rw [← h2], fun hcontra => absurd hcontra hb⟩

/-- Witness for C8 at a concrete crawler and engine. -/
theorem build_index_idempotent_witness :
    wEng8.dirExists = true ∧
    SearchEngine.build_index wC8 wExt wEng8 = Except.ok wEng8b ∧
    SearchEngine.build_index wC8 wExt wEng8b = Except.ok wEng8b ∧
    (wEng8b.docs.length = wEng8b.docs.length ∧
      (wEng8.is_index_built = true → wEng8b = wEng8)) :=
  ⟨rfl, rfl, rfl, build_index_idempotent wC8 wExt wEng8 wEng8b wEng8b rfl rfl rfl⟩

/-- C10: when a page's HTML has a title element with no direct string
content, the stored document's title is the literal string "None"
(Python's `str(None)`), not the fallback "No Title". -/
theorem build_index_title_none (c : Crawler) (ext : Bs4) (eng eng' : SearchEngine)
    (url raw : String)
    (hnb : eng.is_index_built = false)
    (hok : SearchEngine.build_index c ext eng = .ok eng')
    (hmem : url ∈ c.visited) (hc : c.get_content url = some raw)
    (ht : ext.titleOf raw = some none) :
    ∃ d ∈ eng'.docs, d.url = url ∧ d.title = "None" ∧ d.title ≠ "No Title" := by
  rw [build_index_not_built c ext eng hnb] at hok
  cases hp : SearchEngine.process_urls c ext c.visited with
  | error er =>
    rw [hp] at hok
    cases hok
  | ok ds =>
    rw [hp] at hok
    injection hok with hok
    obtain ⟨d, hd, h1, h2⟩ := process_urls_mem c ext c.visited ds url raw hp hmem hc
    refine ⟨d, ?_, h1, ?_, ?_⟩
    · rw [← hok]
      exact List.mem_append.mpr (Or.inr hd)
    · rw [h2, ht]
      decide
    · rw [h2, ht]
      decide

/-- Witness for C10 at a concrete crawler whose only page has an empty
title element. -/
theorem build_index_title_none_witness :
    wEng10.is_index_built = false ∧
    ∃ d ∈ wEng10b.docs, d.url = "u10" ∧ d.title = "None" ∧ d.title ≠ "No Title" :=
  ⟨rfl,
    build_index_title_none wC10 wExt10 wEng10 wEng10b "u10" "page" rfl rfl
      (by decide) rfl rfl⟩
